import Mathlib

/-!
# Verification of the `trading_dashboard` analysis engine

Shallow embedding of the repository's analysis engine
(`stock-analysis-api/analysis_engine/{indicators,analyzer,risk,model}.py`)
and proofs about it.

Modelling conventions:
* pandas/NumPy floating-point series are embedded as `List ℚ` (raw price
  columns, which never hold NaN) and `List (Option ℚ)` (indicator columns,
  where `none` models the NaN "undefined" marker of a not-yet-warmed-up or
  degenerate rolling value).
* Every NumPy comparison involving NaN is false; the `oLt`/`oLe`/`oGt`/`oGe`
  comparisons below return `false` as soon as one operand is `none`.
* Division producing NaN (the `0/0` case) is modelled by `none`.  In every
  division site of this code base the numerator provably vanishes whenever
  the denominator does (constant-window degeneracies), so a zero denominator
  corresponds to the NaN result, never to an IEEE infinity.
-/

namespace TradingDashboard

/-! ## NaN-aware scalar operations -/

/-- NumPy `<` on possibly-NaN values: any comparison with NaN is false. -/
def oLt : Option ℚ → Option ℚ → Bool
  | some a, some b => decide (a < b)
  | _, _ => false

/-- NumPy `<=` on possibly-NaN values: any comparison with NaN is false. -/
def oLe : Option ℚ → Option ℚ → Bool
  | some a, some b => decide (a ≤ b)
  | _, _ => false

/-- NumPy `>` on possibly-NaN values: any comparison with NaN is false. -/
def oGt : Option ℚ → Option ℚ → Bool
  | some a, some b => decide (b < a)
  | _, _ => false

/-- NumPy `>=` on possibly-NaN values: any comparison with NaN is false. -/
def oGe : Option ℚ → Option ℚ → Bool
  | some a, some b => decide (b ≤ a)
  | _, _ => false

/-- NaN-propagating subtraction. -/
def oSub : Option ℚ → Option ℚ → Option ℚ
  | some a, some b => some (a - b)
  | _, _ => none

/-- NaN-propagating division.  A zero denominator yields `none`: at every
division site of this code base a vanishing denominator forces a vanishing
numerator (see the file header), so the float result there is NaN `0/0`. -/
def oDiv : Option ℚ → Option ℚ → Option ℚ
  | some a, some b => if b = 0 then none else some (a / b)
  | _, _ => none

/-! ## Configuration (`ProfessionalStockAnalyzer.__init__`, analyzer.py:49-62)

The source stores the configuration as a fixed dict literal; window/period
entries are embedded as `ℤ` so that statements about non-positive values can
be expressed, thresholds as `ℚ`. -/

structure Config where
  rsi_window : ℤ
  rsi_overbought : ℚ
  rsi_oversold : ℚ
  macd_fast : ℤ
  macd_slow : ℤ
  macd_signal : ℤ
  bb_window : ℤ
  bb_std : ℚ
  stoch_k : ℤ
  stoch_d : ℤ
  min_signal_strength : ℤ
  risk_per_trade : ℚ
deriving DecidableEq

/-- The literal configuration dict of `__init__` (analyzer.py:49-62). -/
def defaultConfig : Config :=
  { rsi_window := 14
    rsi_overbought := 70
    rsi_oversold := 30
    macd_fast := 12
    macd_slow := 26
    macd_signal := 9
    bb_window := 20
    bb_std := 2
    stoch_k := 14
    stoch_d := 3
    min_signal_strength := 2
    risk_per_trade := 2/100 }

/-- The window/period entries of a configuration (the values §7 of the spec
calls "window/period values"). -/
def windowParams (cfg : Config) : List ℤ :=
  [cfg.rsi_window, cfg.macd_fast, cfg.macd_slow, cfg.macd_signal,
   cfg.bb_window, cfg.stoch_k, cfg.stoch_d]

/-! ## Signal data model (`model.py`) -/

inductive SignalType where
  | buy
  | sell
  | hold
deriving DecidableEq

inductive SignalStrength where
  | weak
  | moderate
  | strong
deriving DecidableEq

/-- `TradingSignal` (model.py:18-27).  The `date` field is embedded as the
bar's position `index` in the series. -/
structure TradingSignal where
  index : ℕ
  signal_type : SignalType
  strength : SignalStrength
  price : ℚ
  indicators : List (String × Option ℚ)
  reasons : List String
  confidence : ℚ
deriving DecidableEq

/-! ## One row of the augmented dataframe, as read by the signal engine

`generate_advanced_signals` (analyzer.py:184-310) reads, per bar, the close
price plus these indicator columns; each indicator cell may be NaN. -/

structure Row where
  close : ℚ
  sma20 : Option ℚ
  sma50 : Option ℚ
  sma200 : Option ℚ
  rsi : Option ℚ
  macd : Option ℚ
  macdSignal : Option ℚ
  bbUpper : Option ℚ
  bbLower : Option ℚ
  stochK : Option ℚ
  stochD : Option ℚ
  williamsR : Option ℚ
  cci : Option ℚ
deriving DecidableEq

instance : Inhabited Row :=
  ⟨⟨0, none, none, none, none, none, none, none, none, none, none, none, none⟩⟩

/-! ## The scoring rules (analyzer.py:207-280)

Each rule returns the score delta it contributes together with the reason
strings it appends; `(0, [])` when it does not fire. -/

/-- RSI rule (analyzer.py:207-213). -/
def ruleRSI (cfg : Config) (cur : Row) : ℤ × List String :=
  if oLt cur.rsi (some cfg.rsi_oversold) then (2, ["RSI Oversold"])
  else if oGt cur.rsi (some cfg.rsi_overbought) then (-2, ["RSI Overbought"])
  else (0, [])

/-- MACD crossover rule (analyzer.py:215-223). -/
def ruleMACD (cur prev : Row) : ℤ × List String :=
  if oGt cur.macd cur.macdSignal && oLe prev.macd prev.macdSignal then
    (3, ["MACD Bullish Crossover"])
  else if oLt cur.macd cur.macdSignal && oGe prev.macd prev.macdSignal then
    (-3, ["MACD Bearish Crossover"])
  else (0, [])

/-- `BB_Position` of the indicator snapshot (analyzer.py:201). -/
def bbPosition (cur : Row) : Option ℚ :=
  oDiv (oSub (some cur.close) cur.bbLower) (oSub cur.bbUpper cur.bbLower)

/-- Bollinger-band rule (analyzer.py:225-232). -/
def ruleBB (cur : Row) : ℤ × List String :=
  if oLt (bbPosition cur) (some (1/10)) then (2, ["Below BB Lower Band"])
  else if oGt (bbPosition cur) (some (9/10)) then (-2, ["Above BB Upper Band"])
  else (0, [])

/-- Stochastic crossover rule (analyzer.py:234-244). -/
def ruleStoch (cur prev : Row) : ℤ × List String :=
  if oLt cur.stochK (some 20) && oLt cur.stochD (some 20) &&
      oGt cur.stochK cur.stochD && oLe prev.stochK prev.stochD then
    (2, ["Stochastic Bullish Crossover"])
  else if oGt cur.stochK (some 80) && oGt cur.stochD (some 80) &&
      oLt cur.stochK cur.stochD && oGe prev.stochK prev.stochD then
    (-2, ["Stochastic Bearish Crossover"])
  else (0, [])

/-- Williams %R rule (analyzer.py:246-252). -/
def ruleWilliams (cur : Row) : ℤ × List String :=
  if oLt cur.williamsR (some (-80)) then (1, ["Williams %R Oversold"])
  else if oGt cur.williamsR (some (-20)) then (-1, ["Williams %R Overbought"])
  else (0, [])

/-- CCI rule (analyzer.py:254-260). -/
def ruleCCI (cur : Row) : ℤ × List String :=
  if oLt cur.cci (some (-100)) then (1, ["CCI Oversold"])
  else if oGt cur.cci (some 100) then (-1, ["CCI Overbought"])
  else (0, [])

/-- Price/SMA20 crossover rule (analyzer.py:262-270). -/
def ruleSMA20 (cur prev : Row) : ℤ × List String :=
  if oGt (some cur.close) cur.sma20 && oLe (some prev.close) prev.sma20 then
    (1, ["Price Above SMA20"])
  else if oLt (some cur.close) cur.sma20 && oGe (some prev.close) prev.sma20 then
    (-1, ["Price Below SMA20"])
  else (0, [])

/-- Score contribution of the Golden Cross / Death Cross rule
(analyzer.py:272-280), as a function of the current and previous SMA_50 and
SMA_200 cells. -/
def goldenDeathScore (c50 c200 p50 p200 : Option ℚ) : ℤ :=
  if oGt c50 c200 && oLe p50 p200 then 4
  else if oLt c50 c200 && oGe p50 p200 then -4
  else 0

/-- Reasons appended by the Golden Cross / Death Cross rule
(analyzer.py:272-280). -/
def goldenDeathReasons (c50 c200 p50 p200 : Option ℚ) : List String :=
  if oGt c50 c200 && oLe p50 p200 then ["Golden Cross"]
  else if oLt c50 c200 && oGe p50 p200 then ["Death Cross"]
  else []

/-- Golden Cross / Death Cross rule on dataframe rows. -/
def ruleGD (cur prev : Row) : ℤ × List String :=
  (goldenDeathScore cur.sma50 cur.sma200 prev.sma50 prev.sma200,
   goldenDeathReasons cur.sma50 cur.sma200 prev.sma50 prev.sma200)

/-- Accumulated `signal_score` of one scanned step (analyzer.py:189-280),
rules in source order. -/
def stepScore (cfg : Config) (cur prev : Row) : ℤ :=
  (ruleRSI cfg cur).1 + (ruleMACD cur prev).1 + (ruleBB cur).1 +
    (ruleStoch cur prev).1 + (ruleWilliams cur).1 + (ruleCCI cur).1 +
    (ruleSMA20 cur prev).1 + (ruleGD cur prev).1

/-- Accumulated `reasons` list of one scanned step, rules in source order. -/
def stepReasons (cfg : Config) (cur prev : Row) : List String :=
  (ruleRSI cfg cur).2 ++ (ruleMACD cur prev).2 ++ (ruleBB cur).2 ++
    (ruleStoch cur prev).2 ++ (ruleWilliams cur).2 ++ (ruleCCI cur).2 ++
    (ruleSMA20 cur prev).2 ++ (ruleGD cur prev).2

/-- The `indicators_dict` snapshot collected for a signal
(analyzer.py:197-205), in source order. -/
def snapshot (cur : Row) : List (String × Option ℚ) :=
  [("RSI", cur.rsi), ("MACD", cur.macd), ("MACD_Signal", cur.macdSignal),
   ("BB_Position", bbPosition cur), ("Stoch_K", cur.stochK),
   ("Williams_R", cur.williamsR), ("CCI", cur.cci)]

/-- Strength bucketing (analyzer.py:286-292): `min(|score|, 6) / 2`, float
division, then the 1.5 / 2.5 cut points. -/
def strengthOf (score : ℤ) : SignalStrength :=
  let sv : ℚ := (min |score| 6 : ℤ) / 2
  if sv ≤ 3/2 then SignalStrength.weak
  else if sv ≤ 5/2 then SignalStrength.moderate
  else SignalStrength.strong

/-- Signal emission for one scanned step (analyzer.py:282-307): a signal is
built iff `|score|` reaches `min_signal_strength`. -/
def mkSignal (cfg : Config) (i : ℕ) (cur prev : Row) : Option TradingSignal :=
  let sc := stepScore cfg cur prev
  if cfg.min_signal_strength ≤ |sc| then
    some { index := i
           signal_type := if 0 < sc then SignalType.buy else SignalType.sell
           strength := strengthOf sc
           price := cur.close
           indicators := snapshot cur
           reasons := stepReasons cfg cur prev
           confidence := min ((|sc| : ℚ) / 8) 1 }
  else none

/-- The literal warm-up offset of the scan loop `for i in range(50, ...)`
(analyzer.py:188). -/
def scanStart : ℕ := 50

/-- The positions visited by the scan loop of `generate_advanced_signals`
(analyzer.py:188): `range(50, len(data))`. -/
def scannedIndices (n : ℕ) : List ℕ := (List.range n).drop scanStart

/-- `generate_advanced_signals` (analyzer.py:184-310) over the augmented
rows.  Every scanned position `i` reads row `i` and row `i-1`; both are in
range since `i ≥ 50`. -/
def generate_advanced_signals (cfg : Config) (rows : List Row) :
    List TradingSignal :=
  (scannedIndices rows.length).filterMap fun i =>
    mkSignal cfg i (rows.getD i default) (rows.getD (i - 1) default)

/-! ## Indicator library (`indicators.py`) and the moving-average stage
(analyzer.py:106-115)

Rolling windows follow pandas semantics: at position `i` the window is the
last `w` entries of the series up to `i`; with the default
`min_periods = window` the result is defined iff the window holds `w`
non-NaN values, with `min_periods=1` iff it holds at least one. -/

/-- pandas `Series.rolling(w).mean()` on a NaN-free series (the close/price
columns never hold NaN): defined iff the window is full, i.e. `w ≤ i+1` and
`i` is in range. -/
def smaAt (xs : List ℚ) (w : ℕ) (i : ℕ) : Option ℚ :=
  if w ≤ i + 1 ∧ i < xs.length then
    some ((((xs.take (i + 1)).drop (i + 1 - w)).sum) / (w : ℚ))
  else none

/-- A whole SMA column, aligned with the source series. -/
def smaCol (xs : List ℚ) (w : ℕ) : List (Option ℚ) :=
  (List.range xs.length).map (smaAt xs w)

/-- pandas `rolling(w).mean()` (default `min_periods = w`) on a series that
may hold NaN cells: NaN cells are skipped and the result is defined iff the
window holds `w` valid values (which, the window having `w` slots, means all
of them are valid). -/
def rollMeanOpt (xs : List (Option ℚ)) (w : ℕ) (i : ℕ) : Option ℚ :=
  if i < xs.length then
    let vals := (((xs.take (i + 1)).drop (i + 1 - w)).filterMap id)
    if w ≤ vals.length then some (vals.sum / (vals.length : ℚ)) else none
  else none

/-- pandas `rolling(w).min()` (default `min_periods = w`) on a NaN-free
series. -/
def rollMinAt (xs : List ℚ) (w : ℕ) (i : ℕ) : Option ℚ :=
  if w ≤ i + 1 ∧ i < xs.length then
    ((xs.take (i + 1)).drop (i + 1 - w)).min?
  else none

/-- pandas `rolling(w).max()` (default `min_periods = w`) on a NaN-free
series. -/
def rollMaxAt (xs : List ℚ) (w : ℕ) (i : ℕ) : Option ℚ :=
  if w ≤ i + 1 ∧ i < xs.length then
    ((xs.take (i + 1)).drop (i + 1 - w)).max?
  else none

/-! ### RSI (`TechnicalIndicators.rsi`, indicators.py:9-17)

`delta = prices.diff()` is NaN at position 0.  `delta.where(delta > 0, 0)`
keeps positive deltas and replaces everything else — including the leading
NaN, whose comparison is false — by `0`; symmetrically for losses.  Both
rolling means use `min_periods=1` over these NaN-free inputs, so gain and
loss averages are plain rationals at every position. -/

/-- Input of the gain rolling mean: `delta.where(delta > 0, 0)`. -/
def gainInput (prices : List ℚ) (j : ℕ) : ℚ :=
  if j = 0 then 0 else max (prices.getD j 0 - prices.getD (j - 1) 0) 0

/-- Input of the loss rolling mean: `(-delta.where(delta < 0, 0))`. -/
def lossInput (prices : List ℚ) (j : ℕ) : ℚ :=
  if j = 0 then 0 else max (prices.getD (j - 1) 0 - prices.getD j 0) 0

/-- `rolling(window, min_periods=1).mean()` over a NaN-free series given by
`f` on positions `0..len-1`: the mean of the last `min(i+1, w)` values. -/
def rollMeanMP1 (f : ℕ → ℚ) (w : ℕ) (i : ℕ) : ℚ :=
  let win := ((List.range (i + 1)).drop (i + 1 - w)).map f
  win.sum / (win.length : ℚ)

/-- Rolling average gain at position `i`. -/
def avgGain (prices : List ℚ) (w : ℕ) (i : ℕ) : ℚ :=
  rollMeanMP1 (gainInput prices) w i

/-- Rolling average loss at position `i`. -/
def avgLoss (prices : List ℚ) (w : ℕ) (i : ℕ) : ℚ :=
  rollMeanMP1 (lossInput prices) w i

/-- `TechnicalIndicators.rsi` at one position (indicators.py:9-17).
`rs = gain / loss.replace(0, np.inf)`: a zero loss average is replaced by
`+∞`, and the finite gain divided by `+∞` is exactly `0`; otherwise
`rs = gain/loss`.  `rsi = 100 - 100/(1+rs)` (the denominator `1+rs ≥ 1`
never vanishes since gain and loss averages are nonnegative). -/
def rsiAt (prices : List ℚ) (w : ℕ) (i : ℕ) : ℚ :=
  let g := avgGain prices w i
  let l := avgLoss prices w i
  let rs : ℚ := if l = 0 then 0 else g / l
  100 - 100 / (1 + rs)

/-- The RSI column: defined (non-NaN) at every position of the series. -/
def rsiCol (prices : List ℚ) (w : ℕ) : List (Option ℚ) :=
  (List.range prices.length).map fun i => some (rsiAt prices w i)

/-! ### EMA / MACD (`TechnicalIndicators.macd`, indicators.py:20-27)

`ewm(span=s).mean()` with the pandas defaults (`adjust=True`) is the
bias-corrected weighted mean with decay `1 - α`, `α = 2/(s+1)`. -/

/-- `Series.ewm(span).mean()` at position `i`. -/
def emaAt (xs : List ℚ) (span : ℕ) (i : ℕ) : Option ℚ :=
  if i < xs.length then
    let a : ℚ := 2 / ((span : ℚ) + 1)
    let num := ((List.range (i + 1)).map fun j => (1 - a) ^ j * xs.getD (i - j) 0).sum
    let den := ((List.range (i + 1)).map fun j => (1 - a) ^ j).sum
    some (num / den)
  else none

/-- An EMA column. -/
def emaCol (xs : List ℚ) (span : ℕ) : List (Option ℚ) :=
  (List.range xs.length).map (emaAt xs span)

/-- NaN-propagating cell-wise binary operation on aligned columns. -/
def zipCells (f : ℚ → ℚ → ℚ) (xs ys : List (Option ℚ)) : List (Option ℚ) :=
  xs.zipWith (fun a b => match a, b with
    | some x, some y => some (f x y)
    | _, _ => none) ys

/-- `ewm(span).mean()` of a column that may hold NaN cells.  The close-based
columns fed to it here are NaN-free, so each cell is `emaAt` of the values;
a NaN anywhere makes the cell NaN (conservative, unused in the pipeline). -/
def emaColOpt (xs : List (Option ℚ)) (span : ℕ) : List (Option ℚ) :=
  match xs.mapM id with
  | some vals => emaCol vals span
  | none => xs.map fun _ => none

/-- MACD line, signal line and histogram (indicators.py:20-27). -/
def macdCols (prices : List ℚ) (fast slow signal : ℕ) :
    List (Option ℚ) × List (Option ℚ) × List (Option ℚ) :=
  let macdLine := zipCells (fun a b => a - b) (emaCol prices fast) (emaCol prices slow)
  let signalLine := emaColOpt macdLine signal
  let histogram := zipCells (fun a b => a - b) macdLine signalLine
  (macdLine, signalLine, histogram)

/-! ### Stochastic oscillator (`TechnicalIndicators.stochastic`,
indicators.py:39-45) -/

/-- `%K` at one position: `100 * (close - lowest_low) / (highest_high -
lowest_low)`.  A zero range means every high and low of the window equals
the same constant; for OHLC-consistent bars the close then equals it too,
so the float result is NaN `0/0`, i.e. `none`. -/
def stochKAt (high low close : List ℚ) (kw : ℕ) (i : ℕ) : Option ℚ :=
  match rollMinAt low kw i, rollMaxAt high kw i with
  | some ll, some hh =>
      oDiv (some (100 * (close.getD i 0 - ll))) (some (hh - ll))
  | _, _ => none

/-- The `%K` column. -/
def stochKCol (high low close : List ℚ) (kw : ℕ) : List (Option ℚ) :=
  (List.range close.length).map (stochKAt high low close kw)

/-- `%K` and `%D` columns (indicators.py:39-45): `%D` is the rolling mean of
`%K`. -/
def stochCols (high low close : List ℚ) (kw dw : ℕ) :
    List (Option ℚ) × List (Option ℚ) :=
  let k := stochKCol high low close kw
  (k, (List.range close.length).map (rollMeanOpt k dw))

/-! ### Williams %R (`TechnicalIndicators.williams_r`, indicators.py:48-53) -/

/-- Williams %R at one position: `-100 * (highest_high - close) /
(highest_high - lowest_low)`; the zero-range case is NaN as for `%K`. -/
def williamsAt (high low close : List ℚ) (w : ℕ) (i : ℕ) : Option ℚ :=
  match rollMaxAt high w i, rollMinAt low w i with
  | some hh, some ll =>
      oDiv (some (-100 * (hh - close.getD i 0))) (some (hh - ll))
  | _, _ => none

/-- The Williams %R column. -/
def williamsCol (high low close : List ℚ) (w : ℕ) : List (Option ℚ) :=
  (List.range close.length).map (williamsAt high low close w)

/-! ### ATR (`TechnicalIndicators.atr`, indicators.py:56-64) -/

/-- True range at one position: `max(high - low, |high - prev_close|,
|low - prev_close|)`.  At position 0 the shifted close is NaN and
`np.maximum` propagates it. -/
def trueRangeAt (high low close : List ℚ) (i : ℕ) : Option ℚ :=
  if i = 0 then none
  else some (max (high.getD i 0 - low.getD i 0)
    (max |high.getD i 0 - close.getD (i - 1) 0| |low.getD i 0 - close.getD (i - 1) 0|))

/-- The true-range column. -/
def trueRangeCol (high low close : List ℚ) : List (Option ℚ) :=
  (List.range close.length).map (trueRangeAt high low close)

/-- The ATR column: `true_range.rolling(window).mean()`. -/
def atrCol (high low close : List ℚ) (w : ℕ) : List (Option ℚ) :=
  let tr := trueRangeCol high low close
  (List.range close.length).map (rollMeanOpt tr w)

/-! ### CCI (`TechnicalIndicators.cci`, indicators.py:67-75) -/

/-- Typical price column `(high + low + close) / 3`. -/
def typicalPrice (high low close : List ℚ) : List ℚ :=
  (List.range close.length).map fun i =>
    (high.getD i 0 + low.getD i 0 + close.getD i 0) / 3

/-- Rolling mean absolute deviation of a NaN-free series
(`rolling(w).apply(lambda x: np.mean(np.abs(x - np.mean(x))))`). -/
def madAt (xs : List ℚ) (w : ℕ) (i : ℕ) : Option ℚ :=
  if w ≤ i + 1 ∧ i < xs.length then
    let win := (xs.take (i + 1)).drop (i + 1 - w)
    let m := win.sum / (w : ℚ)
    some ((win.map fun x => |x - m|).sum / (w : ℚ))
  else none

/-- CCI at one position: `(tp - sma) / (0.015 * mean_deviation)`.  A zero
mean deviation forces a constant window, hence `tp = sma` and the float
result is NaN `0/0`, i.e. `none`. -/
def cciAt (high low close : List ℚ) (w : ℕ) (i : ℕ) : Option ℚ :=
  let tp := typicalPrice high low close
  match smaAt tp w i, madAt tp w i with
  | some m, some d => oDiv (some (tp.getD i 0 - m)) (some ((3/200) * d))
  | _, _ => none

/-- The CCI column. -/
def cciCol (high low close : List ℚ) (w : ℕ) : List (Option ℚ) :=
  (List.range close.length).map (cciAt high low close w)

/-! ## The analyzer dataframe (`self.data`) and `calculate_all_indicators`
(analyzer.py:85-182)

A column wrapped in an outer `Option` models column *presence* in the
dataframe (the source tests `'ATR' in self.data`); `none` means the column
has not been added yet.  The four Bollinger-band columns are the one part
of the frame not embedded: their values involve the square root of the
rolling variance, which is irrational, and no verified claim consumes them
(the signal engine receives Bollinger cells as arbitrary `Row` inputs).
The Bollinger stage's configuration guard is still modelled below. -/

structure Frame where
  high : List ℚ
  low : List ℚ
  close : List ℚ
  sma10 : Option (List (Option ℚ)) := none
  sma20 : Option (List (Option ℚ)) := none
  sma50 : Option (List (Option ℚ)) := none
  sma200 : Option (List (Option ℚ)) := none
  ema12 : Option (List (Option ℚ)) := none
  ema26 : Option (List (Option ℚ)) := none
  ema50 : Option (List (Option ℚ)) := none
  rsi : Option (List (Option ℚ)) := none
  macd : Option (List (Option ℚ)) := none
  macdSignal : Option (List (Option ℚ)) := none
  macdHist : Option (List (Option ℚ)) := none
  stochK : Option (List (Option ℚ)) := none
  stochD : Option (List (Option ℚ)) := none
  williamsR : Option (List (Option ℚ)) := none
  atr : Option (List (Option ℚ)) := none
  cci : Option (List (Option ℚ)) := none

/-- `_calculate_moving_averages` (analyzer.py:106-115): window sizes are
source literals, independent of the configuration. -/
def movingAveragesStage (f : Frame) : Frame :=
  { f with
    sma10 := some (smaCol f.close 10)
    sma20 := some (smaCol f.close 20)
    sma50 := some (smaCol f.close 50)
    sma200 := some (smaCol f.close 200)
    ema12 := some (emaCol f.close 12)
    ema26 := some (emaCol f.close 26)
    ema50 := some (emaCol f.close 50) }

/-- `calculate_all_indicators` (analyzer.py:85-104), stages in source order.
The result pairs the dataframe state with the error of the first failing
stage, if any: the source mutates `self.data` stage by stage, so the
columns added before a failure persist.  Each `if w ≤ 0` guard models the
precondition of the underlying pandas rolling/ewm call (`window ≥ 1`,
`min_periods ≤ window`), which raises a `ValueError` for a non-positive
window; with the source's fixed configuration every guard passes.  No stage
inspects the configuration before computing: the moving-average stage runs
unconditionally first. -/
def calculate_all_indicators (cfg : Config) (f : Frame) : Frame × Option String :=
  let f1 := movingAveragesStage f
  if cfg.rsi_window ≤ 0 then (f1, some "ValueError: rsi window") else
  let f2 := { f1 with rsi := some (rsiCol f1.close cfg.rsi_window.toNat) }
  if cfg.macd_fast ≤ 0 ∨ cfg.macd_slow ≤ 0 ∨ cfg.macd_signal ≤ 0 then
    (f2, some "ValueError: ewm span") else
  let m := macdCols f2.close cfg.macd_fast.toNat cfg.macd_slow.toNat cfg.macd_signal.toNat
  let f3 := { f2 with macd := some m.1, macdSignal := some m.2.1, macdHist := some m.2.2 }
  if cfg.bb_window ≤ 0 then (f3, some "ValueError: bb window") else
  if cfg.stoch_k ≤ 0 ∨ cfg.stoch_d ≤ 0 then (f3, some "ValueError: stoch window") else
  let s := stochCols f3.high f3.low f3.close cfg.stoch_k.toNat cfg.stoch_d.toNat
  let f4 := { f3 with stochK := some s.1, stochD := some s.2 }
  let f5 := { f4 with williamsR := some (williamsCol f4.high f4.low f4.close 14) }
  let f6 := { f5 with atr := some (atrCol f5.high f5.low f5.close 14) }
  let f7 := { f6 with cci := some (cciCol f6.high f6.low f6.close 20) }
  (f7, none)

/-! ## Risk engine (`risk.py` and `calculate_risk_metrics`,
analyzer.py:312-350) -/

/-- `RiskMetrics` (risk.py:6-14).  The `volatility` field (standard
deviation of returns times the square root of 252) is irrational and
consumed by no claim; it is not embedded.  The source field name of
`risk_reward` is the risk-reward ratio. -/
structure RiskMetrics where
  stop_loss : Option ℚ
  take_profit : Option ℚ
  risk_reward : Option ℚ
  position_size : Option ℚ
  max_drawdown : Option ℚ
deriving DecidableEq

/-- `RiskManager.calculate_position_size` (risk.py:20-25):
`min(balance * risk / stop_loss_pct, balance * 0.1)`.  Callers must supply a
non-zero `stop_loss_pct` (a zero stop distance makes the float quotient
degenerate); every theorem below assumes `0 < stop_loss_pct`. -/
def calculate_position_size (account_balance risk_per_trade stop_loss_pct : ℚ) : ℚ :=
  min (account_balance * risk_per_trade / stop_loss_pct) (account_balance * (1/10))

/-- Running peak `prices.expanding().max()` at position `i`: the maximum
close observed up to and including `i`. -/
def peakAt (prices : List ℚ) (i : ℕ) : ℚ :=
  (prices.take (i + 1)).foldl max (prices.getD i 0)

/-- The drawdown series `(prices - peak) / peak`. -/
def drawdowns (prices : List ℚ) : List ℚ :=
  (List.range prices.length).map fun i =>
    (prices.getD i 0 - peakAt prices i) / peakAt prices i

/-- `RiskManager.calculate_max_drawdown` (risk.py:33-38): the minimum of the
drawdown series (`none` on an empty series, where the pandas `min` is NaN). -/
def calculate_max_drawdown (prices : List ℚ) : Option ℚ :=
  match drawdowns prices with
  | [] => none
  | x :: xs => some (xs.foldl min x)

/-- The ATR value used by `calculate_risk_metrics` (analyzer.py:318):
`self.data['ATR'].iloc[-1] if 'ATR' in self.data else current_price * 0.02`.
The test is on column *presence*, not on the final cell being NaN. -/
def riskAtrValue (f : Frame) : Option ℚ :=
  match f.atr with
  | some col => col.getD (col.length - 1) none
  | none => some (f.close.getD (f.close.length - 1) 0 * (2/100))

/-- `calculate_risk_metrics` (analyzer.py:312-350); `none` when the series
is empty (the source returns `None`).  NaN propagates through `stop_loss`,
`take_profit`, `stop_loss_pct` and `position_size` exactly as the float
arithmetic does; `risk_reward` is `3|atr| / 2|atr|`, NaN when the stop
distance is zero. -/
def calculate_risk_metrics (cfg : Config) (f : Frame) (account_balance : ℚ) :
    Option RiskMetrics :=
  if f.close = [] then none else
  let price := f.close.getD (f.close.length - 1) 0
  let atr := riskAtrValue f
  let stop_loss := atr.map fun a => price - 2 * a
  let take_profit := atr.map fun a => price + 3 * a
  let stop_loss_pct := stop_loss.map fun sl => |price - sl| / price
  let position_size := stop_loss_pct.map fun p =>
    calculate_position_size account_balance cfg.risk_per_trade p
  let risk_reward :=
    match stop_loss, take_profit with
    | some sl, some tp => oDiv (some |tp - price|) (some |price - sl|)
    | _, _ => none
  some { stop_loss := stop_loss
         take_profit := take_profit
         risk_reward := risk_reward
         position_size := position_size
         max_drawdown := calculate_max_drawdown f.close }

/-! ## Auxiliary definitions used by the verification statements -/

/-- The Golden/Death-cross contribution at scan step `i` of a close series,
i.e. the `ruleGD` score evaluated on the SMA_50 / SMA_200 columns that
`_calculate_moving_averages` derives from the closes. -/
def gdAt (closes : List ℚ) (i : ℕ) : ℤ :=
  goldenDeathScore (smaAt closes 50 i) (smaAt closes 200 i)
    (smaAt closes 50 (i - 1)) (smaAt closes 200 (i - 1))

/-- Modelled from the spec: the strength bucket of §4.2 stated as written —
"min(|score|,6)/2, mapped Weak if ≤ 1.5, Moderate if ≤ 2.5, Strong
otherwise" — to be compared with the source's `strengthOf`. -/
def claimStrength (score : ℤ) : SignalStrength :=
  if ((min |score| 6 : ℤ) : ℚ) / 2 ≤ 3/2 then SignalStrength.weak
  else if ((min |score| 6 : ℤ) : ℚ) / 2 ≤ 5/2 then SignalStrength.moderate
  else SignalStrength.strong

/-- Modelled from the spec: "the close series is non-decreasing throughout"
(each close is at most the next one). -/
def nonDecreasing (xs : List ℚ) : Prop :=
  ∀ i, i + 1 < xs.length → xs.getD i 0 ≤ xs.getD (i + 1) 0

instance (xs : List ℚ) : Decidable (nonDecreasing xs) :=
  decidable_of_iff
    (∀ i, i < xs.length → i + 1 < xs.length → xs.getD i 0 ≤ xs.getD (i + 1) 0)
    ⟨fun h i h1 => h i (Nat.lt_of_succ_lt h1) h1, fun h i _ h1 => h i h1⟩

/-- A 251-bar close series: constant at 100 with a single upward spike to
200 at position 200.  SMA_50 crosses above SMA_200 at step 200 and back
below at step 250. -/
def seriesSpike : List ℚ :=
  List.replicate 200 100 ++ 200 :: List.replicate 50 100

/-- A 250-bar close series: 500 at position 0, then constant at 100 with an
upward spike to 200 at position 200.  SMA_50 stays strictly below SMA_200
wherever both are defined before step 200 and strictly above from step 200
to the end. -/
def seriesDipSpike : List ℚ :=
  500 :: (List.replicate 199 100 ++ 200 :: List.replicate 49 100)

/-- A configuration forced to a non-positive RSI window (no code path of
the repository constructs it; used to examine the absent validation). -/
def cfgBad : Config := { defaultConfig with rsi_window := 0 }

/-- A 25-bar constant price frame. -/
def frame25 : Frame :=
  { high := List.replicate 25 100, low := List.replicate 25 100,
    close := List.replicate 25 100 }

/-- A 3-bar price frame: too short for any ATR value to be defined. -/
def frame3 : Frame :=
  { high := [10, 11, 12], low := [9, 10, 11], close := [10, 11, 12] }

/-- A 1-bar frame whose ATR column was never added (indicators not
computed). -/
def frameNoAtr : Frame := { high := [10], low := [9], close := [10] }

/-- A row whose RSI is oversold and whose other indicator cells are NaN. -/
def rowOversold : Row := { (default : Row) with close := 100, rsi := some 10 }

/-- 51 rows: 50 blank rows followed by `rowOversold`; the scan visits only
step 50 and emits exactly one signal there. -/
def rows51 : List Row := List.replicate 50 default ++ [rowOversold]

/-- The signal the engine emits on `rows51`. -/
def sig51 : TradingSignal :=
  { index := 50
    signal_type := SignalType.buy
    strength := SignalStrength.weak
    price := 100
    indicators := [("RSI", some 10), ("MACD", none), ("MACD_Signal", none),
      ("BB_Position", none), ("Stoch_K", none), ("Williams_R", none), ("CCI", none)]
    reasons := ["RSI Oversold"]
    confidence := 1/4 }

/-! ## Helper lemmas on the NaN-aware comparisons -/

theorem oLt_none_left (b : Option ℚ) : oLt none b = false := by
  cases b <;> rfl

theorem oLt_none_right (a : Option ℚ) : oLt a none = false := by
  cases a <;> rfl

theorem oLe_none_left (b : Option ℚ) : oLe none b = false := by
  cases b <;> rfl

theorem oLe_none_right (a : Option ℚ) : oLe a none = false := by
  cases a <;> rfl

theorem oGt_none_left (b : Option ℚ) : oGt none b = false := by
  cases b <;> rfl

theorem oGt_none_right (a : Option ℚ) : oGt a none = false := by
  cases a <;> rfl

theorem oGe_none_left (b : Option ℚ) : oGe none b = false := by
  cases b <;> rfl

theorem oGe_none_right (a : Option ℚ) : oGe a none = false := by
  cases a <;> rfl

theorem oSub_none_left (b : Option ℚ) : oSub none b = none := by
  cases b <;> rfl

theorem oSub_none_right (a : Option ℚ) : oSub a none = none := by
  cases a <;> rfl

theorem oDiv_none_left (b : Option ℚ) : oDiv none b = none := by
  cases b <;> rfl

theorem oDiv_none_right (a : Option ℚ) : oDiv a none = none := by
  cases a <;> rfl

theorem oGt_of_oLe_false {a b : Option ℚ} (h : oLe a b = true) :
    oGt a b = false := by
  cases a <;> cases b <;> simp_all [oLe, oGt]

theorem oLe_of_oGt_false {a b : Option ℚ} (h : oGt a b = true) :
    oLe a b = false := by
  cases a <;> cases b <;> simp_all [oLe, oGt]

theorem oLt_of_oGt_false {a b : Option ℚ} (h : oGt a b = true) :
    oLt a b = false := by
  cases a <;> cases b <;> simp_all [oLt, oGt]
  exact h.le

theorem oGt_of_oGe_false {a b : Option ℚ} (h : oGe a b = false) :
    oGt a b = false := by
  cases a <;> cases b <;> simp_all [oGe, oGt]
  exact h.le

/-! ## C1 — RSI at zero average loss -/

/-- C1: the claim states that wherever the rolling average loss is exactly
0, the RSI function returns exactly 100.  The code does the opposite:
`loss.replace(0, np.inf)` turns a zero average loss into an infinite
denominator, so `rs = gain/inf = 0` and `rsi = 100 - 100/(1+0) = 0`.  On a
flat 15-bar series the average loss is 0 at every position and the RSI
column is identically 0, not 100. -/
theorem rsi_flat_series_is_zero :
    (∀ i, i < 15 → avgLoss (List.replicate 15 (50:ℚ)) 14 i = 0) ∧
    rsiCol (List.replicate 15 (50:ℚ)) 14 = List.replicate 15 (some 0) :=
  of_decide_eq_true (by with_unfolding_all rfl)

/-! ## C2 — warm-up offset of the signal scan -/

/-- C2 counterexample: the claim states the scan starts at an offset of at
least 200 so that every consumed indicator value is defined.  In fact the
scan starts at the literal offset 50, and on a 60-bar series position 50 is
scanned while its SMA_200 cell — consumed by the Golden/Death-cross rule —
is undefined. -/
theorem scan_warmup_claim_counterexample :
    scanStart < 200 ∧ 50 ∈ scannedIndices 60 ∧
    smaAt (List.replicate 60 (100:ℚ)) 200 50 = none := by
  decide

/-- C2 amended: the scan starts at the fixed offset 50, which is smaller
than the longest lookback window (200); at every position before index 199
the SMA_200 value consumed by the Golden/Death-cross comparison is
undefined, and with an undefined SMA_200 cell that rule contributes 0. -/
theorem scan_warmup_offset_is_fifty :
    scanStart = 50 ∧
    (∀ (closes : List ℚ) (i : ℕ), i < 199 → smaAt closes 200 i = none) ∧
    (∀ a b c : Option ℚ, goldenDeathScore a none b c = 0) := by
  refine ⟨rfl, fun closes i hi => ?_, fun a b c => ?_⟩
  · simp only [smaAt, ite_eq_right_iff]
    intro h
    omega
  · simp [goldenDeathScore, oGt_none_right, oLt_none_right]

/-- C2 amended, witness: on a concrete 220-bar series, position 120 (well
inside the scanned range) still has an undefined SMA_200 cell. -/
theorem scan_warmup_offset_is_fifty_witness :
    smaAt (List.replicate 220 (100:ℚ)) 200 120 = none :=
  scan_warmup_offset_is_fifty.2.1 (List.replicate 220 (100:ℚ)) 120 (by decide)

/-! ## C9 — position-size cap -/

/-- C9: for every account balance ≥ 0, risk fraction ≥ 0 and positive
stop-loss percentage, the position size is capped at one tenth of the
account balance (the `min(..., account_balance * 0.1)` of risk.py:25). -/
theorem position_size_capped (b r s : ℚ) (hb : 0 ≤ b) (hr : 0 ≤ r)
    (hs : 0 < s) : calculate_position_size b r s ≤ (1/10) * b := by
  calc calculate_position_size b r s ≤ b * (1/10) := min_le_right _ _
    _ = (1/10) * b := mul_comm _ _

/-- C9 witness: the cap at the default balance, risk fraction and a 4% stop
distance. -/
theorem position_size_capped_witness :
    calculate_position_size 100000 (2/100) (4/100) ≤ (1/10) * 100000 :=
  position_size_capped 100000 (2/100) (4/100) (by norm_num) (by norm_num)
    (by norm_num)

/-! ## C7 — configuration validation -/

/-- C7 counterexample: the claim states non-positive window values are
rejected before any indicator computation starts.  With a configuration
whose RSI window is 0, the run does fail — but only inside the RSI stage's
library call, after the moving-average stage has already computed values:
the SMA_20 cell at position 19 of a 25-bar constant series holds 100. -/
theorem config_rejection_counterexample :
    cfgBad.rsi_window ≤ 0 ∧
    (calculate_all_indicators cfgBad frame25).2 ≠ none ∧
    ((calculate_all_indicators cfgBad frame25).1.sma20.getD []).getD 19 none =
      some 100 :=
  of_decide_eq_true (by with_unfolding_all rfl)

/-- C7 amended: the repository performs no configuration validation.  Its
configuration is the fixed literal mapping of `__init__`, whose window and
period values are all positive; and for every configuration — including
non-positive windows — `calculate_all_indicators` runs the moving-average
stage first, unconditionally, so nothing is rejected before indicator
computation starts. -/
theorem config_fixed_positive_never_prevalidated :
    (∀ w, w ∈ windowParams defaultConfig → 0 < w) ∧
    (∀ (cfg : Config) (f : Frame),
      (calculate_all_indicators cfg f).1.sma10.isSome = true ∧
      (calculate_all_indicators cfg f).1.sma20.isSome = true ∧
      (calculate_all_indicators cfg f).1.sma50.isSome = true ∧
      (calculate_all_indicators cfg f).1.sma200.isSome = true) := by
  refine ⟨by decide, fun cfg f => ?_⟩
  unfold calculate_all_indicators
  split <;> [skip; split <;> [skip; split <;> [skip; split]]] <;>
    simp [movingAveragesStage]

/-- C7 amended, witness: even under the forced non-positive RSI window the
moving-average columns are present in the resulting frame. -/
theorem config_fixed_positive_never_prevalidated_witness :
    (calculate_all_indicators cfgBad frame25).1.sma10.isSome = true ∧
    (calculate_all_indicators cfgBad frame25).1.sma20.isSome = true ∧
    (calculate_all_indicators cfgBad frame25).1.sma50.isSome = true ∧
    (calculate_all_indicators cfgBad frame25).1.sma200.isSome = true :=
  config_fixed_positive_never_prevalidated.2 cfgBad frame25

/-! ## C3 — ATR fallback in the risk computation -/

/-- C3 counterexample: the claim states that whenever the final ATR value
is undefined, 2% of the final close is substituted.  On a 3-bar series run
through the indicator pipeline the ATR column is present but all-NaN; the
risk computation then uses the NaN final cell — not the fallback — and the
resulting stop loss is NaN instead of `price - 2*(0.02*price)`. -/
theorem risk_atr_fallback_counterexample :
    (calculate_all_indicators defaultConfig frame3).1.atr = some [none, none, none] ∧
    riskAtrValue (calculate_all_indicators defaultConfig frame3).1 = none ∧
    ((calculate_risk_metrics defaultConfig
        (calculate_all_indicators defaultConfig frame3).1 100000).map
      fun rm => rm.stop_loss) = some none ∧
    (some (none : Option ℚ) ≠ some (some ((12:ℚ) - 2 * (12 * (2/100))))) :=
  of_decide_eq_true (by with_unfolding_all rfl)

/-- C3 amended: the 2%-of-price fallback is applied only when the ATR
*column* is absent from the dataframe (`'ATR' in self.data` is false, i.e.
the indicators were never computed); in that case the stop loss equals
`price - 2*(0.02*price)`.  When the column is present, the risk computation
uses its final cell as is — NaN included. -/
theorem risk_atr_fallback_on_missing_column (cfg : Config) (f : Frame)
    (bal : ℚ) (hne : f.close ≠ []) :
    (f.atr = none →
      riskAtrValue f = some (f.close.getD (f.close.length - 1) 0 * (2/100)) ∧
      (calculate_risk_metrics cfg f bal).map (fun rm => rm.stop_loss) =
        some (some (f.close.getD (f.close.length - 1) 0 -
          2 * (f.close.getD (f.close.length - 1) 0 * (2/100))))) ∧
    (∀ col, f.atr = some col → riskAtrValue f = col.getD (col.length - 1) none) := by
  constructor
  · intro h
    have hv : riskAtrValue f = some (f.close.getD (f.close.length - 1) 0 * (2/100)) := by
      simp [riskAtrValue, h]
    refine ⟨hv, ?_⟩
    simp [calculate_risk_metrics, hne, hv]
  · intro col h
    simp [riskAtrValue, h]

/-- C3 amended, witness: on a 1-bar frame without an ATR column the
fallback fires and the stop loss is 96% of the close. -/
theorem risk_atr_fallback_on_missing_column_witness :
    riskAtrValue frameNoAtr =
      some (frameNoAtr.close.getD (frameNoAtr.close.length - 1) 0 * (2/100)) ∧
    (calculate_risk_metrics defaultConfig frameNoAtr 100000).map
        (fun rm => rm.stop_loss) =
      some (some (frameNoAtr.close.getD (frameNoAtr.close.length - 1) 0 -
        2 * (frameNoAtr.close.getD (frameNoAtr.close.length - 1) 0 * (2/100)))) :=
  (risk_atr_fallback_on_missing_column defaultConfig frameNoAtr 100000
    (by decide)).1 rfl

/-! ## C6 — undefined indicator values never fire a rule -/

/-- C6: at any scanned step, a rule whose comparison consumes an undefined
(NaN) indicator cell does not fire: it contributes 0 to the score and
appends no reason.  Every NumPy comparison with NaN is false and every rule
guard is a conjunction of such comparisons, so an undefined operand
falsifies the guard. -/
theorem undefined_indicator_never_fires (cfg : Config) (cur prev : Row) :
    (cur.rsi = none → ruleRSI cfg cur = (0, [])) ∧
    ((cur.macd = none ∨ cur.macdSignal = none ∨ prev.macd = none ∨
        prev.macdSignal = none) → ruleMACD cur prev = (0, [])) ∧
    ((cur.bbUpper = none ∨ cur.bbLower = none) → ruleBB cur = (0, [])) ∧
    ((cur.stochK = none ∨ cur.stochD = none ∨ prev.stochK = none ∨
        prev.stochD = none) → ruleStoch cur prev = (0, [])) ∧
    (cur.williamsR = none → ruleWilliams cur = (0, [])) ∧
    (cur.cci = none → ruleCCI cur = (0, [])) ∧
    ((cur.sma20 = none ∨ prev.sma20 = none) → ruleSMA20 cur prev = (0, [])) ∧
    ((cur.sma50 = none ∨ cur.sma200 = none ∨ prev.sma50 = none ∨
        prev.sma200 = none) → ruleGD cur prev = (0, [])) := by
  refine ⟨fun h => ?_, fun h => ?_, fun h => ?_, fun h => ?_, fun h => ?_,
    fun h => ?_, fun h => ?_, fun h => ?_⟩
  · simp [ruleRSI, h, oLt_none_left, oGt_none_left]
  · rcases h with h | h | h | h <;>
      simp [ruleMACD, h, oGt_none_left, oGt_none_right, oLt_none_left,
        oLt_none_right, oLe_none_left, oLe_none_right, oGe_none_left,
        oGe_none_right]
  · rcases h with h | h <;>
      simp [ruleBB, bbPosition, h, oSub_none_left, oSub_none_right,
        oDiv_none_left, oDiv_none_right, oLt_none_left, oGt_none_left]
  · rcases h with h | h | h | h <;>
      simp [ruleStoch, h, oGt_none_left, oGt_none_right, oLt_none_left,
        oLt_none_right, oLe_none_left, oLe_none_right, oGe_none_left,
        oGe_none_right]
  · simp [ruleWilliams, h, oLt_none_left, oGt_none_left]
  · simp [ruleCCI, h, oLt_none_left, oGt_none_left]
  · rcases h with h | h <;>
      simp [ruleSMA20, h, oGt_none_right, oLt_none_right, oLe_none_right,
        oGe_none_right]
  · rcases h with h | h | h | h <;>
      simp [ruleGD, goldenDeathScore, goldenDeathReasons, h, oGt_none_left,
        oGt_none_right, oLt_none_left, oLt_none_right, oLe_none_left,
        oLe_none_right, oGe_none_left, oGe_none_right]

/-- C6 witness: on an all-NaN row no rule fires. -/
theorem undefined_indicator_never_fires_witness :
    ruleRSI defaultConfig default = (0, []) ∧ ruleMACD default default = (0, []) ∧
    ruleBB default = (0, []) ∧ ruleStoch default default = (0, []) ∧
    ruleWilliams default = (0, []) ∧ ruleCCI default = (0, []) ∧
    ruleSMA20 default default = (0, []) ∧ ruleGD default default = (0, []) := by
  have h := undefined_indicator_never_fires defaultConfig default default
  exact ⟨h.1 rfl, h.2.1 (Or.inl rfl), h.2.2.1 (Or.inl rfl),
    h.2.2.2.1 (Or.inl rfl), h.2.2.2.2.1 rfl, h.2.2.2.2.2.1 rfl,
    h.2.2.2.2.2.2.1 (Or.inl rfl), h.2.2.2.2.2.2.2 (Or.inl rfl)⟩

/-! ## C4 — signal emission, type, strength, confidence -/

/-- C4: at every scanned step, if the absolute accumulated rule score
reaches `min_signal_strength` (2 in the source's fixed configuration) a
signal is emitted whose type is Buy for a positive score and Sell
otherwise, whose strength is the claim's bucket map of `min(|score|,6)/2`
(Weak ≤ 1.5 < Moderate ≤ 2.5 < Strong), and whose confidence is
`min(|score|/8, 1)`; a step whose absolute score is below the threshold
emits no signal. -/
theorem signal_emission_rule (i : ℕ) (cur prev : Row) :
    defaultConfig.min_signal_strength = 2 ∧
    (2 ≤ |stepScore defaultConfig cur prev| →
      mkSignal defaultConfig i cur prev = some
        { index := i
          signal_type := if 0 < stepScore defaultConfig cur prev then
            SignalType.buy else SignalType.sell
          strength := claimStrength (stepScore defaultConfig cur prev)
          price := cur.close
          indicators := snapshot cur
          reasons := stepReasons defaultConfig cur prev
          confidence := min ((|stepScore defaultConfig cur prev| : ℚ) / 8) 1 }) ∧
    (|stepScore defaultConfig cur prev| < 2 →
      mkSignal defaultConfig i cur prev = none) := by
  refine ⟨rfl, fun h => ?_, fun h => ?_⟩
  · unfold mkSignal
    rw [if_pos (show defaultConfig.min_signal_strength ≤
      |stepScore defaultConfig cur prev| from h)]
    rfl
  · unfold mkSignal
    rw [if_neg (show ¬ defaultConfig.min_signal_strength ≤
      |stepScore defaultConfig cur prev| from not_le.mpr h)]

/-- C4 witness: a step whose only firing rule is RSI-oversold (score 2)
emits the expected weak buy signal with confidence 1/4. -/
theorem signal_emission_rule_witness :
    mkSignal defaultConfig 50 rowOversold default = some sig51 := by
  have h := (signal_emission_rule 50 rowOversold default).2.1
    (of_decide_eq_true (by with_unfolding_all rfl))
  rw [h]
  with_unfolding_all rfl

/-! ## C10 — confidence bounds of emitted signals -/

/-- C10: every signal emitted by the engine under the source's fixed
configuration has confidence at least `min_signal_strength/8` (= 1/4), at
most 1, and never 0: emission requires `|score| ≥ min_signal_strength`, and
confidence is `min(|score|/8, 1)`. -/
theorem emitted_confidence_bounds (rows : List Row) (sig : TradingSignal)
    (h : sig ∈ generate_advanced_signals defaultConfig rows) :
    ((defaultConfig.min_signal_strength : ℚ) / 8) ≤ sig.confidence ∧
    sig.confidence ≤ 1 ∧ sig.confidence ≠ 0 := by
  unfold generate_advanced_signals at h
  rw [List.mem_filterMap] at h
  obtain ⟨i, -, hmk⟩ := h
  unfold mkSignal at hmk
  by_cases hc : defaultConfig.min_signal_strength ≤
      |stepScore defaultConfig (rows.getD i default) (rows.getD (i - 1) default)|
  · rw [if_pos hc] at hmk
    obtain rfl := (Option.some.inj hmk).symm
    set sc := stepScore defaultConfig (rows.getD i default)
      (rows.getD (i - 1) default) with hsc
    have h2 : (2 : ℚ) ≤ (|sc| : ℚ) := by exact_mod_cast hc
    have hpos : (0 : ℚ) < min ((|sc| : ℚ) / 8) 1 :=
      lt_min (by linarith) one_pos
    have hm : ((defaultConfig.min_signal_strength : ℤ) : ℚ) = 2 := by
      norm_num [defaultConfig]
    refine ⟨?_, min_le_right _ _, hpos.ne'⟩
    rw [hm]
    exact le_min (by linarith) (by norm_num)
  · rw [if_neg hc] at hmk
    exact Option.noConfusion hmk

/-- C10 witness: the one signal emitted on `rows51` has confidence within
the stated bounds. -/
theorem emitted_confidence_bounds_witness :
    ((defaultConfig.min_signal_strength : ℚ) / 8) ≤ sig51.confidence ∧
    sig51.confidence ≤ 1 ∧ sig51.confidence ≠ 0 :=
  emitted_confidence_bounds rows51 sig51
    (of_decide_eq_true (by with_unfolding_all rfl))

/-! ## C8 — maximum drawdown: fold lemmas -/

theorem le_foldl_max (l : List ℚ) {a b : ℚ} (h : a ≤ b) : a ≤ l.foldl max b := by
  induction l generalizing b with
  | nil => simpa using h
  | cons x xs ih => exact ih (le_trans h (le_max_left b x))

theorem mem_le_foldl_max {x : ℚ} :
    ∀ (l : List ℚ) (b : ℚ), x ∈ l → x ≤ l.foldl max b
  | y :: ys, b, hx => by
    rcases List.mem_cons.mp hx with rfl | h
    · exact le_foldl_max ys (le_max_right b x)
    · exact mem_le_foldl_max ys (max b y) h

theorem foldl_max_mem :
    ∀ (l : List ℚ) (b : ℚ), l.foldl max b = b ∨ l.foldl max b ∈ l
  | [], _ => Or.inl rfl
  | x :: xs, b => by
    rw [List.foldl_cons]
    rcases foldl_max_mem xs (max b x) with h | h
    · rcases max_choice b x with he | he
      · exact Or.inl (by rw [h, he])
      · exact Or.inr (by rw [h, he]; exact List.mem_cons_self x xs)
    · exact Or.inr (List.mem_cons_of_mem x h)

theorem foldl_max_of_forall_le {l : List ℚ} {b : ℚ} (h : ∀ x ∈ l, x ≤ b) :
    l.foldl max b = b := by
  induction l with
  | nil => rfl
  | cons x xs ih =>
    rw [List.foldl_cons, max_eq_left (h x (List.mem_cons_self x xs))]
    exact ih fun y hy => h y (List.mem_cons_of_mem x hy)

theorem foldl_min_le (l : List ℚ) {a b : ℚ} (h : b ≤ a) : l.foldl min b ≤ a := by
  induction l generalizing b with
  | nil => simpa using h
  | cons x xs ih => exact ih (le_trans (min_le_left b x) h)

theorem foldl_min_le_mem {x : ℚ} :
    ∀ (l : List ℚ) (b : ℚ), x ∈ l → l.foldl min b ≤ x
  | y :: ys, b, hx => by
    rcases List.mem_cons.mp hx with rfl | h
    · exact foldl_min_le ys (min_le_right b x)
    · exact foldl_min_le_mem ys (min b y) h

theorem foldl_min_mem :
    ∀ (l : List ℚ) (b : ℚ), l.foldl min b = b ∨ l.foldl min b ∈ l
  | [], _ => Or.inl rfl
  | x :: xs, b => by
    rw [List.foldl_cons]
    rcases foldl_min_mem xs (min b x) with h | h
    · rcases min_choice b x with he | he
      · exact Or.inl (by rw [h, he])
      · exact Or.inr (by rw [h, he]; exact List.mem_cons_self x xs)
    · exact Or.inr (List.mem_cons_of_mem x h)

/-! ## C8 — maximum drawdown: peak and drawdown lemmas -/

theorem getD_mem_of_lt (l : List ℚ) (i : ℕ) (h : i < l.length) :
    l.getD i 0 ∈ l := by
  rw [List.getD_eq_getElem?_getD, List.getElem?_eq_getElem h]
  exact List.getElem_mem h

theorem self_le_peakAt (prices : List ℚ) (i : ℕ) :
    prices.getD i 0 ≤ peakAt prices i :=
  le_foldl_max _ le_rfl

theorem peakAt_pos {prices : List ℚ} (hpos : ∀ p ∈ prices, 0 < p) {i : ℕ}
    (hi : i < prices.length) : 0 < peakAt prices i := by
  rcases foldl_max_mem (prices.take (i + 1)) (prices.getD i 0) with h | h
  · rw [peakAt, h]
    exact hpos _ (getD_mem_of_lt prices i hi)
  · exact hpos _ (List.mem_of_mem_take h)

theorem prefix_le_peakAt {prices : List ℚ} {j i : ℕ} (hj : j ≤ i)
    (hi : i < prices.length) : prices.getD j 0 ≤ peakAt prices i := by
  have hjl : j < prices.length := lt_of_le_of_lt hj hi
  have hjt : j < (prices.take (i + 1)).length := by
    rw [List.length_take]
    omega
  have hmem : prices.getD j 0 ∈ prices.take (i + 1) := by
    have h1 : (prices.take (i + 1)).get ⟨j, hjt⟩ ∈ prices.take (i + 1) :=
      List.get_mem _ _ _
    have h2 : (prices.take (i + 1)).get ⟨j, hjt⟩ = prices.getD j 0 := by
      simp [List.get_eq_getElem, List.getD_eq_getElem?_getD,
        List.getElem?_eq_getElem hjl]
    rwa [h2] at h1
  exact mem_le_foldl_max _ _ hmem

theorem drawdown_elt {prices : List ℚ} {y : ℚ} (hy : y ∈ drawdowns prices) :
    ∃ i, i < prices.length ∧
      y = (prices.getD i 0 - peakAt prices i) / peakAt prices i := by
  rw [drawdowns, List.mem_map] at hy
  obtain ⟨i, hi, rfl⟩ := hy
  exact ⟨i, List.mem_range.mp hi, rfl⟩

theorem drawdown_index_mem {prices : List ℚ} {i : ℕ} (hi : i < prices.length) :
    (prices.getD i 0 - peakAt prices i) / peakAt prices i ∈ drawdowns prices := by
  rw [drawdowns, List.mem_map]
  exact ⟨i, List.mem_range.mpr hi, rfl⟩

theorem drawdown_elt_nonpos {prices : List ℚ} (hpos : ∀ p ∈ prices, 0 < p)
    {y : ℚ} (hy : y ∈ drawdowns prices) : y ≤ 0 := by
  obtain ⟨i, hi, rfl⟩ := drawdown_elt hy
  refine div_nonpos_iff.mpr (Or.inr ⟨?_, le_of_lt (peakAt_pos hpos hi)⟩)
  exact sub_nonpos.mpr (self_le_peakAt prices i)

/-! ## C8 — maximum drawdown -/

/-- C8: on every non-empty series of positive closes,
`calculate_max_drawdown` returns a value `d ≤ 0`, and `d = 0` iff the close
series is non-decreasing throughout. -/
theorem max_drawdown_nonpos_zero_iff_monotone (prices : List ℚ)
    (hne : prices ≠ []) (hpos : ∀ p ∈ prices, 0 < p) :
    ∃ d, calculate_max_drawdown prices = some d ∧ d ≤ 0 ∧
      (d = 0 ↔ nonDecreasing prices) := by
  obtain ⟨x, xs, hdd⟩ : ∃ x xs, drawdowns prices = x :: xs := by
    cases h : drawdowns prices with
    | nil =>
      exfalso
      have h0 : prices.length = 0 := by
        simpa [drawdowns] using congrArg List.length h
      exact hne (List.length_eq_zero.mp h0)
    | cons x xs => exact ⟨x, xs, rfl⟩
  have hmin_le : ∀ y ∈ drawdowns prices, xs.foldl min x ≤ y := by
    intro y hy
    rw [hdd] at hy
    rcases List.mem_cons.mp hy with rfl | h
    · exact foldl_min_le xs le_rfl
    · exact foldl_min_le_mem xs x h
  have hmin_mem : xs.foldl min x ∈ drawdowns prices := by
    rw [hdd]
    rcases foldl_min_mem xs x with h | h
    · rw [h]; exact List.mem_cons_self x xs
    · exact List.mem_cons_of_mem x h
  refine ⟨xs.foldl min x, by rw [calculate_max_drawdown, hdd], ?_, ?_, ?_⟩
  · exact drawdown_elt_nonpos hpos hmin_mem
  · -- minimum zero forces every drawdown to vanish, hence monotonicity
    intro hzero i hi1
    have hall : ∀ j, j < prices.length →
        prices.getD j 0 = peakAt prices j := by
      intro j hj
      have h1 : (prices.getD j 0 - peakAt prices j) / peakAt prices j ≤ 0 :=
        drawdown_elt_nonpos hpos (drawdown_index_mem hj)
      have h2 : (0:ℚ) ≤ (prices.getD j 0 - peakAt prices j) / peakAt prices j :=
        le_of_eq_of_le hzero.symm (hmin_le _ (drawdown_index_mem hj))
      have h3 : (prices.getD j 0 - peakAt prices j) / peakAt prices j = 0 :=
        le_antisymm h1 h2
      rcases div_eq_zero_iff.mp h3 with h4 | h4
      · exact sub_eq_zero.mp h4
      · exact absurd h4 (ne_of_gt (peakAt_pos hpos hj))
    have hi : i < prices.length := Nat.lt_of_succ_lt hi1
    calc prices.getD i 0 ≤ peakAt prices (i + 1) :=
          prefix_le_peakAt (Nat.le_succ i) hi1
      _ = prices.getD (i + 1) 0 := (hall (i + 1) hi1).symm
  · -- a non-decreasing series has vanishing drawdowns everywhere
    intro hnd
    have mono : ∀ j i, j ≤ i → i < prices.length →
        prices.getD j 0 ≤ prices.getD i 0 := by
      intro j i hji
      induction i with
      | zero =>
        intro _
        obtain rfl : j = 0 := Nat.le_zero.mp hji
        exact le_rfl
      | succ n ih =>
        intro hn1
        rcases Nat.lt_or_ge j (n + 1) with hlt | hge
        · exact le_trans (ih (Nat.lt_succ_iff.mp hlt) (Nat.lt_of_succ_lt hn1))
            (hnd n hn1)
        · obtain rfl : j = n + 1 := le_antisymm hji hge
          exact le_rfl
    have hall : ∀ j, j < prices.length →
        (prices.getD j 0 - peakAt prices j) / peakAt prices j = 0 := by
      intro j hj
      have hpk : peakAt prices j = prices.getD j 0 := by
        refine foldl_max_of_forall_le ?_
        intro y hy
        obtain ⟨k, hk, rfl⟩ := List.mem_iff_getElem.mp hy
        have hkj : k < j + 1 := by
          have := hk
          rw [List.length_take] at this
          omega
        have hkl : k < prices.length := by
          have := hk
          rw [List.length_take] at this
          omega
        rw [List.getElem_take, ← List.getD_eq_getElem _ 0 hkl]
        exact mono k j (Nat.lt_succ_iff.mp hkj) hj
      rw [hpk, sub_self, zero_div]
    have : xs.foldl min x ∈ drawdowns prices := hmin_mem
    obtain ⟨i, hi, he⟩ := drawdown_elt this
    rw [he]
    exact hall i hi

/-- C8 witness: on the 3-bar positive series `[2, 1, 4]` the maximum
drawdown is defined, non-positive, and zero iff the series is
non-decreasing (it is not: it equals -1/2). -/
theorem max_drawdown_nonpos_zero_iff_monotone_witness :
    ∃ d, calculate_max_drawdown [2, 1, 4] = some d ∧ d ≤ 0 ∧
      (d = 0 ↔ nonDecreasing [2, 1, 4]) :=
  max_drawdown_nonpos_zero_iff_monotone [2, 1, 4] (by decide)
    (of_decide_eq_true (by with_unfolding_all rfl))

/-! ## C5 — Golden Cross contribution -/

set_option maxRecDepth 100000 in
/-- C5 counterexample: the claim quantifies over every series with
SMA_50 ≤ SMA_200 at `t-1` and SMA_50 > SMA_200 at `t` and asserts that no
cross rule contributes at any other scanned step.  `seriesSpike` satisfies
the claim's hypotheses at `t = 200` (both averages defined, non-strict
below at 199, strictly above at 200, Golden Cross +4 fires), yet at the
scanned step 250 the spike leaves the SMA_50 window and the Death Cross
rule contributes -4 there. -/
theorem golden_cross_claim_counterexample :
    (50 ≤ 200 ∧ 200 < seriesSpike.length) ∧
    oLe (smaAt seriesSpike 50 199) (smaAt seriesSpike 200 199) = true ∧
    oGt (smaAt seriesSpike 50 200) (smaAt seriesSpike 200 200) = true ∧
    gdAt seriesSpike 200 = 4 ∧
    (50 ≤ 250 ∧ 250 < seriesSpike.length ∧ 250 ≠ 200) ∧
    gdAt seriesSpike 250 = -4 :=
  of_decide_eq_true (by with_unfolding_all rfl)

/-- C5 amended: for every close series whose computed SMA_50 stays strictly
below SMA_200 wherever both are defined before step `t-1`, is defined and
≤ SMA_200 at `t-1`, and is strictly above SMA_200 from step `t` to the end
of the series (a single below-to-above transition at `t`), the Golden Cross
rule contributes exactly +4 at step `t` and neither the Golden Cross nor
the Death Cross rule contributes at any other scanned step. -/
theorem golden_cross_unique_contribution (closes : List ℚ) (t : ℕ)
    (ht50 : 50 ≤ t) (htn : t < closes.length)
    (hprev : oLe (smaAt closes 50 (t - 1)) (smaAt closes 200 (t - 1)) = true)
    (hbefore : ∀ s, s < t - 1 →
      oGe (smaAt closes 50 s) (smaAt closes 200 s) = false)
    (hafter : ∀ s, s < closes.length → t ≤ s →
      oGt (smaAt closes 50 s) (smaAt closes 200 s) = true) :
    gdAt closes t = 4 ∧
    ∀ s, 50 ≤ s → s < closes.length → s ≠ t → gdAt closes s = 0 := by
  constructor
  · have hg := hafter t htn le_rfl
    simp [gdAt, goldenDeathScore, hg, hprev]
  · intro s h50 hsn hne
    rcases Nat.lt_or_ge s t with hlt | hge
    · rcases Nat.lt_or_ge s (t - 1) with hlt1 | hge1
      · have hcur := hbefore s hlt1
        have hprev1 := hbefore (s - 1) (by omega)
        simp [gdAt, goldenDeathScore, oGt_of_oGe_false hcur, hprev1]
      · obtain rfl : s = t - 1 := by omega
        have h1 := oGt_of_oLe_false hprev
        have h2 := hbefore (t - 1 - 1) (by omega)
        simp [gdAt, goldenDeathScore, h1, h2]
    · have hcur := hafter s hsn (by omega)
      have hprevgt := hafter (s - 1) (by omega) (by omega)
      simp [gdAt, goldenDeathScore, oLe_of_oGt_false hprevgt,
        oLt_of_oGt_false hcur]

set_option maxRecDepth 100000 in
/-- C5 amended, witness: `seriesDipSpike` has its single below-to-above
transition at step 200; the Golden Cross rule contributes +4 there and
nothing contributes at any other scanned step. -/
theorem golden_cross_unique_contribution_witness :
    gdAt seriesDipSpike 200 = 4 ∧
    ∀ s, 50 ≤ s → s < seriesDipSpike.length → s ≠ 200 →
      gdAt seriesDipSpike s = 0 :=
  golden_cross_unique_contribution seriesDipSpike 200
    (by norm_num)
    (of_decide_eq_true (by with_unfolding_all rfl))
    (of_decide_eq_true (by with_unfolding_all rfl))
    (of_decide_eq_true (by with_unfolding_all rfl))
    (of_decide_eq_true (by with_unfolding_all rfl))

end TradingDashboard
